import Mathlib

/-!
Verification development for the dashboard repository.

The definitions below are shallow embeddings of the TypeScript source:

* `PromptRoute` models `src/app/api/prompt/route.ts` — the prompt-version
  CRUD handlers (`POST`, `PUT`, `DELETE`) over the `promptVersions`
  collection.  The collection is modelled as a `List PromptDoc`; each
  handler becomes a function from the request payload and the pre-state to
  the HTTP response together with the post-state.  MongoDB's
  `findOne(query, {sort: {version: -1}})` is modelled by `findLatest`
  (an element of maximal `version` among the matching documents),
  `insertOne` by appending to the list, `deleteOne` by removing the first
  matching document.  The wall clock of `formatMetadata` is passed in as
  explicit `today`/`now` strings; database/transport failures (the
  `catch` branches) are out of scope.
* `Promptmanager` models the client-side visible-set computation
  (`filteredPrompts`) of `src/app/pages/Promptmanager.tsx`.
* `StatsOverview` models the status-count aggregation of
  `src/app/pages/components/StatsOverview.tsx`.
* `HourActivity` and `UsageByTime` model the two hourly histograms.
* `DataTable` models the CSV export of `src/unnamed/part_003`, and
  `DashboardPage` the CSV export appended to `Promptmanager.tsx`.
* `ArtifactsRoute` models the per-document record construction of the
  artifacts API (`src/unnamed/part_011`).
-/

/-- JavaScript string truthiness: `!s` is true exactly for the empty
string (or an absent value, which we model as `Option.none` where it can
occur).  `truthy s = true` means the string passes an `if (s)` test. -/
def truthy (s : String) : Bool := s ≠ ""

/-- Truthiness of an optional string (absent = `undefined`). -/
def truthyOpt (s : Option String) : Bool :=
  match s with
  | none => false
  | some s => truthy s

namespace PromptRoute

/-- Metadata object carried by a prompt version
(`src/app/pages/types.ts`, `PromptVersion.metadata`); all keys are
optional in the source. -/
structure Metadata where
  author : Option String := none
  changelog : Option String := none
  tokens : Option Int := none
  displayDate : Option String := none
  displayTime : Option String := none
  deriving Repr, DecidableEq

/-- One document of the `promptVersions` collection, with the fields the
route handlers read and write (`route.ts` lines 129-140 and 194-205).
`createdAt`/`updatedAt` and Mongo's `_id` are not read by any claim and
are omitted. -/
structure PromptDoc where
  promptId : String
  flow : String
  feature : String
  mode : String
  type : String
  version : Int
  prompt : String
  metadata : Metadata
  deriving Repr, DecidableEq

/-- The error responses of the route handlers: `validation` is the
400 "<field> is required" family, `notFound` the 404 responses. -/
inductive ApiErr where
  | validation (msg : String)
  | notFound (msg : String)
  deriving Repr, DecidableEq

/-- `formatMetadata` (`route.ts` lines 6-13): spread the incoming
metadata and overwrite `displayDate` (YYYY-MM-DD) and `displayTime`
(HH:MM:SS) from the current time, which is passed in explicitly here. -/
def formatMetadata (m : Metadata) (today now : String) : Metadata :=
  { m with displayDate := some today, displayTime := some now }

/-- An element of maximal `version` in a list of documents (first such
element on ties).  Models the result order of Mongo's
`sort({version: -1})` followed by taking the first document; tie order
is unspecified in Mongo, and `version` is expected unique per query. -/
def pickMax : List PromptDoc → Option PromptDoc
  | [] => none
  | d :: ds =>
    match pickMax ds with
    | none => some d
    | some m => if m.version > d.version then some m else some d

/-- `collection.findOne({promptId}, {sort: {version: -1}})`
(`route.ts` lines 120-124 and 178-182): the matching document of
maximal `version`, or `none` when the `promptId` has no document. -/
def findLatest (store : List PromptDoc) (pid : String) : Option PromptDoc :=
  pickMax (store.filter (fun d => d.promptId == pid))

/-- Request body of the `POST` handler (`route.ts` lines 102-114).
The handler requires `promptId`, `flow`, `feature`, `mode`, `type` and
`prompt`; a missing or empty field is rejected with 400.  JavaScript
treats `undefined` and `""` alike under `!body[field]`, so each required
field is modelled as a `String` with `""` standing for both. -/
structure PostBody where
  promptId : String
  flow : String
  feature : String
  mode : String
  type : String
  prompt : String
  metadata : Option Metadata := none
  deriving Repr, DecidableEq

/-- First required field of the `POST` body that is missing/empty, in
the order of the `requiredFields` array (`route.ts` line 106). -/
def firstMissing (b : PostBody) : Option String :=
  if !truthy b.promptId then some "promptId"
  else if !truthy b.flow then some "flow"
  else if !truthy b.feature then some "feature"
  else if !truthy b.mode then some "mode"
  else if !truthy b.type then some "type"
  else if !truthy b.prompt then some "prompt"
  else none

/-- The `POST` handler (`route.ts` lines 100-159): validate the required
fields, look up the latest version for the caller-supplied `promptId`,
and insert a document at `latest.version + 1` (or `1` when the
`promptId` is new).  There is no duplicate-tuple check of any kind.
Returns the response and the post-state of the collection. -/
def POST (store : List PromptDoc) (b : PostBody) (today now : String) :
    Except ApiErr PromptDoc × List PromptDoc :=
  match firstMissing b with
  | some f => (.error (.validation (f ++ " is required")), store)
  | none =>
    let latest := findLatest store b.promptId
    let newVersion : Int :=
      match latest with
      | some l => l.version + 1
      | none => 1
    let newDoc : PromptDoc :=
      { promptId := b.promptId, flow := b.flow, feature := b.feature
        mode := b.mode, type := b.type, version := newVersion
        prompt := b.prompt
        metadata := formatMetadata (b.metadata.getD {}) today now }
    (.ok newDoc, store ++ [newDoc])

/-- The `PUT` handler (`route.ts` lines 162-224): require `promptId` and
`prompt`, find the latest version for `promptId` (404 when none),
then insert a new document carrying the immutable fields forward from
the latest version, at `latest.version + 1`. -/
def PUT (store : List PromptDoc) (pid text : String) (md : Option Metadata)
    (today now : String) : Except ApiErr PromptDoc × List PromptDoc :=
  if !truthy pid || !truthy text then
    (.error (.validation "promptId and prompt are required"), store)
  else
    match findLatest store pid with
    | none => (.error (.notFound "Prompt ID not found"), store)
    | some latest =>
      let newDoc : PromptDoc :=
        { promptId := latest.promptId, flow := latest.flow
          feature := latest.feature, mode := latest.mode
          type := latest.type, version := latest.version + 1
          prompt := text
          metadata := formatMetadata (md.getD latest.metadata) today now }
      (.ok newDoc, store ++ [newDoc])

/-- `collection.deleteOne({promptId, version})` (`route.ts` lines
244-247): remove the first matching document; also report the
`deletedCount` (0 or 1). -/
def deleteOne (store : List PromptDoc) (pid : String) (v : Int) :
    List PromptDoc × Nat :=
  match store with
  | [] => ([], 0)
  | d :: ds =>
    if d.promptId == pid && d.version == v then (ds, 1)
    else
      let r := deleteOne ds pid v
      (d :: r.1, r.2)

/-- The `DELETE` handler (`route.ts` lines 227-267): require the
`promptId` and `version` query parameters, delete the single matching
document, and answer 404 when nothing was deleted.  The query-string
layer (`parseInt` of the `version` parameter) is outside the model; the
handler receives the parsed version. -/
def DELETE (store : List PromptDoc) (pid : String) (v : Int) :
    Except ApiErr Unit × List PromptDoc :=
  if !truthy pid then
    (.error (.validation "promptId and version are required"), store)
  else
    let r := deleteOne store pid v
    if r.2 = 0 then (.error (.notFound "Prompt version not found"), store)
    else (.ok (), r.1)

end PromptRoute

namespace PromptRoute

theorem truthy_of_ne (s : String) (h : s ≠ "") : truthy s = true := by
  simpa [truthy] using h

theorem pickMax_cons_isSome (d : PromptDoc) (ds : List PromptDoc) :
    (pickMax (d :: ds)).isSome = true := by
  rw [pickMax]
  cases pickMax ds with
  | none => rfl
  | some m => by_cases hv : m.version > d.version <;> simp [hv]

theorem pickMax_none_iff {l : List PromptDoc} : pickMax l = none ↔ l = [] := by
  constructor
  · intro h
    cases l with
    | nil => rfl
    | cons d ds =>
      exfalso
      have hs := pickMax_cons_isSome d ds
      rw [h] at hs
      simp at hs
  · intro h
    subst h
    rfl

theorem pickMax_mem {l : List PromptDoc} {m : PromptDoc}
    (h : pickMax l = some m) : m ∈ l := by
  induction l with
  | nil => simp [pickMax] at h
  | cons d ds ih =>
    rw [pickMax] at h
    cases hds : pickMax ds with
    | none => rw [hds] at h; simp_all
    | some m' =>
      rw [hds] at h
      by_cases hv : m'.version > d.version
      · simp [hv] at h
        subst h
        exact List.mem_cons_of_mem _ (ih hds)
      · simp [hv] at h
        simp [h]

theorem pickMax_isMax {l : List PromptDoc} {m : PromptDoc}
    (h : pickMax l = some m) : ∀ d ∈ l, d.version ≤ m.version := by
  induction l generalizing m with
  | nil => simp
  | cons d ds ih =>
    rw [pickMax] at h
    cases hds : pickMax ds with
    | none =>
      rw [hds] at h
      have hnil : ds = [] := pickMax_none_iff.mp hds
      subst hnil
      simp_all
    | some m' =>
      rw [hds] at h
      by_cases hv : m'.version > d.version
      · simp [hv] at h
        subst h
        intro e he
        rcases List.mem_cons.mp he with rfl | he'
        · exact le_of_lt hv
        · exact ih hds e he'
      · simp [hv] at h
        subst h
        intro e he
        rcases List.mem_cons.mp he with rfl | he'
        · exact le_refl _
        · exact le_trans (ih hds e he') (not_lt.mp hv)

theorem findLatest_spec {store : List PromptDoc} {pid : String} {l : PromptDoc}
    (h : findLatest store pid = some l) :
    l ∈ store ∧ l.promptId = pid ∧
      ∀ d ∈ store, d.promptId = pid → d.version ≤ l.version := by
  unfold findLatest at h
  have hmem := pickMax_mem h
  have hmax := pickMax_isMax h
  have hl := List.mem_filter.mp hmem
  refine ⟨hl.1, by simpa using hl.2, ?_⟩
  intro d hd hdp
  exact hmax d (List.mem_filter.mpr ⟨hd, by simpa using hdp⟩)

theorem findLatest_none {store : List PromptDoc} {pid : String}
    (h : ∀ d ∈ store, d.promptId ≠ pid) : findLatest store pid = none := by
  unfold findLatest
  rw [pickMax_none_iff]
  rw [List.filter_eq_nil_iff]
  intro d hd
  simpa using h d hd

theorem findLatest_isSome {store : List PromptDoc} {pid : String} {d : PromptDoc}
    (hd : d ∈ store) (hp : d.promptId = pid) :
    ∃ l, findLatest store pid = some l := by
  cases h : findLatest store pid with
  | some l => exact ⟨l, rfl⟩
  | none =>
    exfalso
    unfold findLatest at h
    rw [pickMax_none_iff] at h
    have : d ∈ store.filter (fun d => d.promptId == pid) :=
      List.mem_filter.mpr ⟨hd, by simpa using hp⟩
    rw [h] at this
    simp at this

end PromptRoute

namespace PromptRoute

theorem truthy_empty : truthy "" = false := rfl

/-- C1: if the store holds at least one version for `promptId`, with
maximum version `V`, then `PUT` (the update operation) appends and
returns a new record with the same `promptId` and version `V + 1`,
leaving every pre-existing record — in particular the one at version
`V` — in the store unmodified; if the `promptId` references no existing
version, `PUT` answers `NotFoundError` and inserts nothing. -/
theorem claim_C1_put_creates_next_version
    (store : List PromptDoc) (pid text : String) (md : Option Metadata)
    (today now : String) (V : Int)
    (hpid : pid ≠ "") (htext : text ≠ "") :
    ((∃ d ∈ store, d.promptId = pid ∧ d.version = V ∧
        ∀ e ∈ store, e.promptId = pid → e.version ≤ V) →
      ∃ newDoc,
        PUT store pid text md today now = (.ok newDoc, store ++ [newDoc]) ∧
        newDoc.promptId = pid ∧ newDoc.version = V + 1 ∧
        ∀ d ∈ store, d ∈ store ++ [newDoc]) ∧
    ((∀ d ∈ store, d.promptId ≠ pid) →
      PUT store pid text md today now =
        (.error (.notFound "Prompt ID not found"), store)) := by
  constructor
  · rintro ⟨d0, hd0, hp0, hv0, hmax⟩
    obtain ⟨l, hl⟩ := findLatest_isSome hd0 hp0
    obtain ⟨hlmem, hlpid, hlmax⟩ := findLatest_spec hl
    have h1 : l.version ≤ V := hmax l hlmem hlpid
    have h2 : V ≤ l.version := hv0 ▸ hlmax d0 hd0 hp0
    have hV : l.version = V := le_antisymm h1 h2
    refine ⟨⟨l.promptId, l.flow, l.feature, l.mode, l.type, l.version + 1,
      text, formatMetadata (md.getD l.metadata) today now⟩, ?_, ?_, ?_, ?_⟩
    · unfold PUT
      rw [truthy_of_ne pid hpid, truthy_of_ne text htext, hl]
      rfl
    · exact hlpid
    · simpa using hV
    · intro d hd
      exact List.mem_append_left _ hd
  · intro h
    unfold PUT
    rw [truthy_of_ne pid hpid, truthy_of_ne text htext, findLatest_none h]
    rfl

/-- Concrete instantiation of C1: a two-version store for `"p1"` with
maximum version 2, updated to version 3; and a `NotFound` failure on an
empty store. -/
theorem claim_C1_put_creates_next_version_witness :
    (∃ newDoc,
        PUT [⟨"p1", "flow1", "feat1", "chat", "gen", 1, "old",
               ⟨none, none, none, none, none⟩⟩,
             ⟨"p1", "flow1", "feat1", "chat", "gen", 2, "cur",
               ⟨none, none, none, none, none⟩⟩]
          "p1" "newer" none "2025-01-02" "03:04:05" =
          (.ok newDoc,
            [⟨"p1", "flow1", "feat1", "chat", "gen", 1, "old",
               ⟨none, none, none, none, none⟩⟩,
             ⟨"p1", "flow1", "feat1", "chat", "gen", 2, "cur",
               ⟨none, none, none, none, none⟩⟩] ++ [newDoc]) ∧
        newDoc.promptId = "p1" ∧ newDoc.version = 2 + 1 ∧
        ∀ d ∈ [⟨"p1", "flow1", "feat1", "chat", "gen", 1, "old",
                 ⟨none, none, none, none, none⟩⟩,
               ⟨"p1", "flow1", "feat1", "chat", "gen", 2, "cur",
                 ⟨none, none, none, none, none⟩⟩],
          d ∈ [⟨"p1", "flow1", "feat1", "chat", "gen", 1, "old",
                 ⟨none, none, none, none, none⟩⟩,
               ⟨"p1", "flow1", "feat1", "chat", "gen", 2, "cur",
                 ⟨none, none, none, none, none⟩⟩] ++ [newDoc]) ∧
    PUT [] "p9" "sometext" none "2025-01-02" "03:04:05" =
      (.error (.notFound "Prompt ID not found"), []) := by
  constructor
  · exact (claim_C1_put_creates_next_version _ "p1" "newer" none
      "2025-01-02" "03:04:05" 2 (by decide) (by decide)).1 (by decide)
  · exact (claim_C1_put_creates_next_version [] "p9" "sometext" none
      "2025-01-02" "03:04:05" 0 (by decide) (by decide)).2 (by decide)

end PromptRoute

namespace PromptRoute

/-- The match predicate of the `DELETE` query `{promptId, version}`. -/
def matchKey (pid : String) (v : Int) (d : PromptDoc) : Bool :=
  d.promptId == pid && d.version == v

theorem deleteOne_eq_filter {store : List PromptDoc} {pid : String} {v : Int}
    (huniq : store.countP (matchKey pid v) ≤ 1) :
    deleteOne store pid v =
      (store.filter (fun d => !(matchKey pid v d)),
       store.countP (matchKey pid v)) := by
  induction store with
  | nil => rfl
  | cons d ds ih =>
    by_cases hd : matchKey pid v d = true
    · have hcond : (d.promptId == pid && d.version == v) = true := hd
      have hz : ds.countP (matchKey pid v) = 0 := by
        have h1 : ds.countP (matchKey pid v) + 1 ≤ 1 := by
          have h2 := huniq
          rw [List.countP_cons, hd] at h2
          exact h2
        omega
      have hall : ∀ e ∈ ds, matchKey pid v e = false := by
        intro e he
        exact Bool.eq_false_iff.mpr (List.countP_eq_zero.mp hz e he)
      have hfil : ds.filter (fun e => !(matchKey pid v e)) = ds :=
        List.filter_eq_self.mpr (fun e he => by simp [hall e he])
      show (if (d.promptId == pid && d.version == v) = true then (ds, 1)
        else
          let r := deleteOne ds pid v
          (d :: r.1, r.2)) = _
      rw [if_pos hcond, List.filter_cons_of_neg, hfil, List.countP_cons, hd, hz]
      · rfl
      · simp [hd]
    · have hd' : matchKey pid v d = false := Bool.eq_false_iff.mpr hd
      have hcond : ¬((d.promptId == pid && d.version == v) = true) := hd
      have huniq' : ds.countP (matchKey pid v) ≤ 1 := by
        have h1 := huniq
        rw [List.countP_cons, hd'] at h1
        omega
      show (if (d.promptId == pid && d.version == v) = true then (ds, 1)
        else
          let r := deleteOne ds pid v
          (d :: r.1, r.2)) = _
      rw [if_neg hcond]
      show (d :: (deleteOne ds pid v).1, (deleteOne ds pid v).2) = _
      rw [ih huniq', List.filter_cons_of_pos, List.countP_cons, hd']
      · rfl
      · simp [hd']

end PromptRoute

namespace PromptRoute

/-- C5: `DELETE` removes exactly the record identified by the
`(promptId, version)` pair and fails with `NotFoundError` when no such
record exists; all sibling versions of the same `promptId` (and all
other records) are unchanged either way.  The uniqueness hypothesis
reflects the versioning invariant that at most one document carries a
given `(promptId, version)` pair. -/
theorem claim_C5_delete_exact_version
    (store : List PromptDoc) (pid : String) (v : Int)
    (hpid : pid ≠ "")
    (huniq : store.countP (matchKey pid v) ≤ 1) :
    ((∀ d ∈ store, ¬(d.promptId = pid ∧ d.version = v)) →
      DELETE store pid v =
        (.error (.notFound "Prompt version not found"), store)) ∧
    ((∃ d ∈ store, d.promptId = pid ∧ d.version = v) →
      DELETE store pid v =
        (.ok (), store.filter (fun d => !(matchKey pid v d))) ∧
      ∀ d ∈ store, ¬(d.promptId = pid ∧ d.version = v) →
        d ∈ (DELETE store pid v).2) := by
  have hDel := deleteOne_eq_filter huniq
  constructor
  · intro hnone
    have hz : store.countP (matchKey pid v) = 0 := by
      apply List.countP_eq_zero.mpr
      intro a ha
      have hne := hnone a ha
      simp only [matchKey, Bool.and_eq_true, beq_iff_eq]
      intro hcontra
      exact hne hcontra
    unfold DELETE
    rw [truthy_of_ne pid hpid, hDel, hz]
    rfl
  · rintro ⟨d0, hd0, hp0, hv0⟩
    have hpos : 0 < store.countP (matchKey pid v) :=
      List.countP_pos_iff.mpr ⟨d0, hd0, by simp [matchKey, hp0, hv0]⟩
    have hone : store.countP (matchKey pid v) = 1 := le_antisymm huniq hpos
    have hEq : DELETE store pid v =
        (.ok (), store.filter (fun d => !(matchKey pid v d))) := by
      unfold DELETE
      rw [truthy_of_ne pid hpid, hDel, hone]
      rfl
    refine ⟨hEq, ?_⟩
    intro d hd hne
    rw [hEq]
    apply List.mem_filter.mpr
    refine ⟨hd, ?_⟩
    simp only [matchKey, Bool.and_eq_true, beq_iff_eq, Bool.not_eq_true',
      Bool.and_eq_false_iff]
    by_cases h1 : d.promptId = pid
    · right
      simp only [beq_eq_false_iff_ne, ne_eq]
      intro h2
      exact hne ⟨h1, h2⟩
    · left
      simp only [beq_eq_false_iff_ne, ne_eq]
      exact h1

/-- Concrete instantiation of C5: deleting version 1 of `"p1"` from a
two-version store keeps version 2; deleting it again (from the store
that only has version 2) answers `NotFound` and changes nothing. -/
theorem claim_C5_delete_exact_version_witness :
    DELETE [⟨"p1", "f", "ft", "chat", "gen", 2, "cur",
              ⟨none, none, none, none, none⟩⟩] "p1" 1 =
      (.error (.notFound "Prompt version not found"),
       [⟨"p1", "f", "ft", "chat", "gen", 2, "cur",
          ⟨none, none, none, none, none⟩⟩]) ∧
    (DELETE [⟨"p1", "f", "ft", "chat", "gen", 1, "old",
                ⟨none, none, none, none, none⟩⟩,
             ⟨"p1", "f", "ft", "chat", "gen", 2, "cur",
                ⟨none, none, none, none, none⟩⟩] "p1" 1 =
      (.ok (),
       List.filter (fun d => !(matchKey "p1" 1 d))
         [⟨"p1", "f", "ft", "chat", "gen", 1, "old",
             ⟨none, none, none, none, none⟩⟩,
          ⟨"p1", "f", "ft", "chat", "gen", 2, "cur",
             ⟨none, none, none, none, none⟩⟩]) ∧
      ∀ d ∈ [⟨"p1", "f", "ft", "chat", "gen", 1, "old",
                ⟨none, none, none, none, none⟩⟩,
             ⟨"p1", "f", "ft", "chat", "gen", 2, "cur",
                ⟨none, none, none, none, none⟩⟩],
        ¬(d.promptId = "p1" ∧ d.version = 1) →
          d ∈ (DELETE [⟨"p1", "f", "ft", "chat", "gen", 1, "old",
                          ⟨none, none, none, none, none⟩⟩,
                       ⟨"p1", "f", "ft", "chat", "gen", 2, "cur",
                          ⟨none, none, none, none, none⟩⟩] "p1" 1).2) := by
  constructor
  · exact (claim_C5_delete_exact_version _ "p1" 1 (by decide) (by decide)).1
      (by decide)
  · exact (claim_C5_delete_exact_version _ "p1" 1 (by decide) (by decide)).2
      (by decide)

end PromptRoute

namespace PromptRoute

/-- C3 counterexample: the store already holds a record with the exact
tuple `(flow, title, mode)` (old schema: `(flow, feature, mode)`), yet
`POST` with the same tuple under a fresh `promptId` succeeds and inserts
a new version-1 record — no `ConflictError` is raised and the store
grows.  This refutes the claim that a duplicate tuple makes
`createPrompt` fail without inserting. -/
theorem claim_C3_counterexample :
    (∃ d ∈ [(⟨"id0", "f", "t", "m", "ty", 1, "p0",
               ⟨none, none, none, none, none⟩⟩ : PromptDoc)],
        d.flow = "f" ∧ d.feature = "t" ∧ d.mode = "m") ∧
    POST [⟨"id0", "f", "t", "m", "ty", 1, "p0",
            ⟨none, none, none, none, none⟩⟩]
        ⟨"id1", "f", "t", "m", "ty", "p1", none⟩ "2025-01-01" "00:00:00" =
      (.ok ⟨"id1", "f", "t", "m", "ty", 1, "p1",
              ⟨none, none, none, some "2025-01-01", some "00:00:00"⟩⟩,
       [⟨"id0", "f", "t", "m", "ty", 1, "p0",
           ⟨none, none, none, none, none⟩⟩,
        ⟨"id1", "f", "t", "m", "ty", 1, "p1",
           ⟨none, none, none, some "2025-01-01", some "00:00:00"⟩⟩]) := by
  constructor
  · exact ⟨_, List.mem_cons_self _ _, rfl, rfl, rfl⟩
  · rfl

/-- C3 as amended: the `POST` create handler performs no duplicate-tuple
check at all — for every valid body, even one whose
`(flow, feature, mode)` tuple already exists in the store, the call
succeeds and appends a record carrying that same tuple; the conflict
alert surfaced by the client (`handleSubmit`) is driven solely by an
`exists` flag coming from the external backend, which is not part of
this repository. -/
theorem claim_C3_amended_no_conflict_check
    (store : List PromptDoc) (b : PostBody) (today now : String)
    (hvalid : firstMissing b = none)
    (_hdup : ∃ d ∈ store,
      d.flow = b.flow ∧ d.feature = b.feature ∧ d.mode = b.mode) :
    ∃ newDoc,
      POST store b today now = (.ok newDoc, store ++ [newDoc]) ∧
      newDoc.flow = b.flow ∧ newDoc.feature = b.feature ∧
      newDoc.mode = b.mode := by
  unfold POST
  rw [hvalid]
  exact ⟨_, rfl, rfl, rfl, rfl⟩

/-- Concrete instantiation of the amended C3: a duplicate
`(flow, feature, mode)` tuple is inserted without error. -/
theorem claim_C3_amended_witness :
    ∃ newDoc,
      POST [⟨"id0", "f", "t", "m", "ty", 1, "p0",
               ⟨none, none, none, none, none⟩⟩]
          ⟨"id1", "f", "t", "m", "ty", "p1", none⟩ "2025-01-01" "00:00:00" =
        (.ok newDoc,
         [⟨"id0", "f", "t", "m", "ty", 1, "p0",
             ⟨none, none, none, none, none⟩⟩] ++ [newDoc]) ∧
      newDoc.flow = "f" ∧ newDoc.feature = "t" ∧ newDoc.mode = "m" :=
  claim_C3_amended_no_conflict_check _ _ "2025-01-01" "00:00:00"
    (by decide) (by decide)

/-- C4 counterexample: `POST` does not generate a `promptId` — it is a
required field supplied by the caller, and a create request without one
is rejected with a 400 validation error, inserting nothing.  This
refutes the claim that `createPrompt` generates a new `promptId` not
supplied by the caller. -/
theorem claim_C4_counterexample :
    POST [] ⟨"", "f", "t", "m", "ty", "p", none⟩ "2025-01-01" "00:00:00" =
      (.error (.validation "promptId is required"), []) := rfl

/-- C4 as amended: `POST` requires the caller-supplied `promptId`
(a body without one fails validation and inserts nothing); on success it
sets `version = 1` exactly when the store holds no record for that
`promptId`, and `max + 1` when versions for it already exist (`V` below
is characterized as the maximum version among the existing documents of
that `promptId`); either way it stamps `metadata.displayDate` and
`metadata.displayTime` from the current time and returns the created
record. -/
theorem claim_C4_amended_create_requires_promptId
    (store : List PromptDoc) (b : PostBody) (today now : String) :
    (b.promptId = "" →
      POST store b today now =
        (.error (.validation "promptId is required"), store)) ∧
    (firstMissing b = none →
      (∀ d ∈ store, d.promptId ≠ b.promptId) →
      ∃ newDoc,
        POST store b today now = (.ok newDoc, store ++ [newDoc]) ∧
        newDoc.promptId = b.promptId ∧ newDoc.version = 1 ∧
        newDoc.prompt = b.prompt ∧
        newDoc.metadata.displayDate = some today ∧
        newDoc.metadata.displayTime = some now) ∧
    (firstMissing b = none →
      ∀ V : Int,
      (∃ d ∈ store, d.promptId = b.promptId ∧ d.version = V ∧
          ∀ e ∈ store, e.promptId = b.promptId → e.version ≤ V) →
      ∃ newDoc,
        POST store b today now = (.ok newDoc, store ++ [newDoc]) ∧
        newDoc.promptId = b.promptId ∧ newDoc.version = V + 1 ∧
        newDoc.prompt = b.prompt ∧
        newDoc.metadata.displayDate = some today ∧
        newDoc.metadata.displayTime = some now) := by
  refine ⟨?_, ?_, ?_⟩
  · intro hempty
    unfold POST firstMissing
    rw [hempty]
    rfl
  · intro hvalid hfresh
    unfold POST
    rw [hvalid, findLatest_none hfresh]
    exact ⟨_, rfl, rfl, rfl, rfl, rfl, rfl⟩
  · rintro hvalid V ⟨d0, hd0, hp0, hv0, hmax⟩
    obtain ⟨l, hl⟩ := findLatest_isSome hd0 hp0
    obtain ⟨hlmem, hlpid, hlmax⟩ := findLatest_spec hl
    have hV : l.version = V :=
      le_antisymm (hmax l hlmem hlpid) (hv0 ▸ hlmax d0 hd0 hp0)
    refine ⟨⟨b.promptId, b.flow, b.feature, b.mode, b.type, l.version + 1,
      b.prompt, formatMetadata (b.metadata.getD {}) today now⟩,
      ?_, rfl, ?_, rfl, rfl, rfl⟩
    · unfold POST
      rw [hvalid, hl]
    · simpa using hV

/-- Concrete instantiation of the amended C4: missing `promptId` is
rejected; a fresh `promptId` is created at version 1 with the display
date/time stamped; and a `promptId` already at maximum version 3 is
created at version 4. -/
theorem claim_C4_amended_witness :
    POST [] ⟨"", "f", "t", "m", "ty", "p", none⟩ "2025-02-03" "04:05:06" =
      (.error (.validation "promptId is required"), []) ∧
    (∃ newDoc,
      POST [] ⟨"idN", "f", "t", "m", "ty", "p", none⟩ "2025-02-03" "04:05:06" =
        (.ok newDoc, [] ++ [newDoc]) ∧
      newDoc.promptId = "idN" ∧ newDoc.version = 1 ∧
      newDoc.prompt = "p" ∧
      newDoc.metadata.displayDate = some "2025-02-03" ∧
      newDoc.metadata.displayTime = some "04:05:06") ∧
    (∃ newDoc,
      POST [⟨"idE", "f", "t", "m", "ty", 3, "old",
               ⟨none, none, none, none, none⟩⟩]
          ⟨"idE", "f", "t", "m", "ty", "p", none⟩ "2025-02-03" "04:05:06" =
        (.ok newDoc,
         [⟨"idE", "f", "t", "m", "ty", 3, "old",
             ⟨none, none, none, none, none⟩⟩] ++ [newDoc]) ∧
      newDoc.promptId = "idE" ∧ newDoc.version = 3 + 1 ∧
      newDoc.prompt = "p" ∧
      newDoc.metadata.displayDate = some "2025-02-03" ∧
      newDoc.metadata.displayTime = some "04:05:06") := by
  refine ⟨?_, ?_, ?_⟩
  · exact (claim_C4_amended_create_requires_promptId []
      ⟨"", "f", "t", "m", "ty", "p", none⟩ "2025-02-03" "04:05:06").1 rfl
  · exact (claim_C4_amended_create_requires_promptId []
      ⟨"idN", "f", "t", "m", "ty", "p", none⟩ "2025-02-03" "04:05:06").2.1
      (by decide) (by decide)
  · exact (claim_C4_amended_create_requires_promptId _
      ⟨"idE", "f", "t", "m", "ty", "p", none⟩ "2025-02-03" "04:05:06").2.2
      (by decide) 3 (by decide)

end PromptRoute

namespace Promptmanager

/-- Metadata as read by the prompt-manager component
(`Promptmanager.tsx`); only `author` takes part in the search match. -/
structure MgrMeta where
  author : Option String := none
  changelog : Option String := none
  tokens : Option Int := none
  displayDate : Option String := none
  displayTime : Option String := none
  deriving Repr, DecidableEq

/-- A prompt-version record as the component reads it
(`promptId`, `flow`, `promptTitle`, `mode`, `promptDescription`,
`prompt`, `metadata`, `version`); every field can be absent in the data
coming back from the backend, so each is an `Option`. -/
structure PromptRec where
  promptId : Option String := none
  flow : Option String := none
  promptTitle : Option String := none
  mode : Option String := none
  promptDescription : Option String := none
  prompt : Option String := none
  metadata : MgrMeta := {}
  version : Option Int := none
  deriving Repr, DecidableEq

/-- The filter state of the component (`PromptFilterState`):
`search` is applied client-side by `filteredPrompts`; the other four are
only forwarded to the backend query in `loadPrompts`. -/
structure PromptFilterState where
  search : Option String := none
  flow : Option String := none
  promptTitle : Option String := none
  mode : Option String := none
  promptDescription : Option String := none
  deriving Repr, DecidableEq

/-- JavaScript `(field || '').toLowerCase().includes(searchLower)`:
case-insensitive substring test against an optional field. -/
def includesLower (field : Option String) (searchLower : String) : Bool :=
  decide (List.IsInfix searchLower.data ((field.getD "").toLower).data)

/-- `filteredPrompts` (`Promptmanager.tsx` lines 384-397): when
`filters.search` is falsy every record passes; otherwise a record
passes iff the lowered search string occurs in one of `promptId`,
`flow`, `promptTitle`, `mode`, `promptDescription`, `prompt` or
`metadata.author`.  This is the entire client-side visible-set
computation: no grouping by `promptId`, no version selection, no
sorting. -/
def filteredPrompts (prompts : List PromptRec)
    (filters : PromptFilterState) : List PromptRec :=
  prompts.filter (fun p =>
    match filters.search with
    | none => true
    | some s =>
      if !(truthy s) then true
      else
        let searchLower := s.toLower
        includesLower p.promptId searchLower ||
        includesLower p.flow searchLower ||
        includesLower p.promptTitle searchLower ||
        includesLower p.mode searchLower ||
        includesLower p.promptDescription searchLower ||
        includesLower p.prompt searchLower ||
        includesLower p.metadata.author searchLower)

/-- C2 counterexample: with no filters set, two versions of the same
`promptId` both stay visible — `filteredPrompts` returns the input list
as is, so the output holds two records with `promptId = "p1"` (versions
1 and 2), not exactly one record at the maximum version. -/
theorem claim_C2_counterexample :
    filteredPrompts
        [⟨some "p1", some "fl", some "A", some "Userstory", some "d1",
            some "body1", {}, some 1⟩,
         ⟨some "p1", some "fl", some "A", some "Userstory", some "d2",
            some "body2", {}, some 2⟩]
        ⟨none, none, none, none, none⟩ =
      [⟨some "p1", some "fl", some "A", some "Userstory", some "d1",
          some "body1", {}, some 1⟩,
       ⟨some "p1", some "fl", some "A", some "Userstory", some "d2",
          some "body2", {}, some 2⟩] ∧
    (filteredPrompts
        [⟨some "p1", some "fl", some "A", some "Userstory", some "d1",
            some "body1", {}, some 1⟩,
         ⟨some "p1", some "fl", some "A", some "Userstory", some "d2",
            some "body2", {}, some 2⟩]
        ⟨none, none, none, none, none⟩).countP
      (fun p => p.promptId == some "p1") = 2 := by
  constructor
  · rfl
  · rfl

/-- C2 as amended: whenever the `search` filter is unset or blank,
`filteredPrompts` returns its input unchanged — every version of every
`promptId` remains visible, with no per-`promptId` deduplication, no
maximum-version selection and no sorting; the other four filters only
change which list the external backend returns, not this computation. -/
theorem claim_C2_amended_no_dedup
    (prompts : List PromptRec) (filters : PromptFilterState)
    (hsearch : filters.search = none ∨ filters.search = some "") :
    filteredPrompts prompts filters = prompts := by
  unfold filteredPrompts
  apply List.filter_eq_self.mpr
  intro p hp
  rcases hsearch with h | h <;> (rw [h]; try rfl)

/-- Concrete instantiation of the amended C2 at both blank-search
shapes. -/
theorem claim_C2_amended_witness :
    filteredPrompts
        [⟨some "p1", some "fl", some "A", some "Userstory", some "d1",
            some "body1", {}, some 1⟩]
        ⟨none, none, none, none, none⟩ =
      [⟨some "p1", some "fl", some "A", some "Userstory", some "d1",
          some "body1", {}, some 1⟩] ∧
    filteredPrompts
        [⟨some "p1", some "fl", some "A", some "Userstory", some "d1",
            some "body1", {}, some 1⟩]
        ⟨some "", none, none, none, none⟩ =
      [⟨some "p1", some "fl", some "A", some "Userstory", some "d1",
          some "body1", {}, some 1⟩] :=
  ⟨claim_C2_amended_no_dedup _ _ (Or.inl rfl),
   claim_C2_amended_no_dedup _ _ (Or.inr rfl)⟩

end Promptmanager

/-- One artifact record as the dashboard components consume it
(`src/app/pages/types.ts`, `UserStoryData`); all fields are optional in
the source, and `status` is an open string at runtime. -/
structure UserStoryData where
  artifact_id : Option String := none
  artifact_title : Option String := none
  date : Option String := none
  time : Option String := none
  user_email : Option String := none
  mode_name : Option String := none
  widget_name : Option String := none
  project_name : Option String := none
  user_story_type : Option String := none
  status : Option String := none
  created_at : Option String := none
  updated_at : Option String := none
  deriving Repr, DecidableEq

namespace StatsOverview

/-- The `stats` object computed by `StatsOverview`
(`StatsOverview.tsx` lines 11-16): the record total plus one count per
recognized status value.  These four fields are all the aggregate
holds — there is no bucket for missing or unrecognized statuses. -/
structure Stats where
  total : Nat
  success : Nat
  failed : Nat
  pending : Nat
  deriving Repr, DecidableEq

/-- `StatsOverview.tsx` lines 11-16 (the same counts are recomputed in
`StatusBreakdown.tsx` lines 11-15): filter by strict equality with each
status literal and take the lengths. -/
def statsOf (data : List UserStoryData) : Stats :=
  { total := data.length
    success := (data.filter (fun d => d.status == some "success")).length
    failed := (data.filter (fun d => d.status == some "failed")).length
    pending := (data.filter (fun d => d.status == some "pending")).length }

/-- A record that falls in none of the three status buckets. -/
def unmatched (d : UserStoryData) : Bool :=
  !(d.status == some "success" || d.status == some "failed" ||
    d.status == some "pending")

/-- C6 counterexample: on the claim's example input the aggregate
computed by the code is `{total := 4, success := 2, failed := 1,
pending := 0}` — there is no `unknown` bucket in the result at all, and
the three status buckets cover only 3 of the 4 records, so the
empty-status record is counted in no status bucket rather than in an
`unknown` bucket of size 1. -/
theorem claim_C6_counterexample :
    statsOf [{status := some "success"}, {status := some "failed"},
             {status := some "success"}, {}] =
      ⟨4, 2, 1, 0⟩ ∧
    (2 : Nat) + 1 + 0 < 4 := by
  constructor
  · rfl
  · decide

/-- C6 as amended: the status aggregate counts `success`, `failed`,
`pending` and the overall total only; a record with a missing or
unrecognized status is counted in no status bucket (it contributes to
the total alone).  Every record is counted in exactly one of
success / failed / pending / uncounted, and on the example input the
result is total 4, success 2, failed 1, pending 0 with exactly one
uncounted record. -/
theorem claim_C6_amended_no_unknown_bucket (data : List UserStoryData) :
    (statsOf data).success + (statsOf data).failed +
      (statsOf data).pending + data.countP unmatched =
      (statsOf data).total ∧
    statsOf [{status := some "success"}, {status := some "failed"},
             {status := some "success"}, {}] =
      ⟨4, 2, 1, 0⟩ ∧
    List.countP unmatched
        [{status := some "success"}, {status := some "failed"},
         {status := some "success"}, ({} : UserStoryData)] = 1 := by
  refine ⟨?_, rfl, rfl⟩
  simp only [statsOf, ← List.countP_eq_length_filter]
  induction data with
  | nil => rfl
  | cons d ds ih =>
    simp only [List.countP_cons, List.length_cons, unmatched]
    by_cases h1 : d.status == some "success" <;>
      by_cases h2 : d.status == some "failed" <;>
      by_cases h3 : d.status == some "pending" <;>
      simp_all [unmatched] <;> omega

end StatsOverview

namespace HourActivity

/-- JavaScript `s.padStart(2, '0')`. -/
def padStart2 (s : String) : String :=
  if s.length ≥ 2 then s
  else if s.length = 1 then "0" ++ s
  else "00"

/-- Value of `parseInt(s, 10)` on a string of decimal digits (the only
shape reaching the range check below: both extraction paths produce
digit-only strings, so the `isNaN`/negative branches of the source are
unreachable and the check reduces to `> 23`). -/
def digitsToNat (s : String) : Nat :=
  s.data.foldl (fun acc c => acc * 10 + (c.toNat - '0'.toNat)) 0

/-- The anchored match `time.match(/^(\d{1,2}):/)` (`part_007` line 35):
greedily two leading digits followed by a colon, else one leading digit
followed by a colon, else no match; the captured group is returned. -/
def hourMatch (t : String) : Option String :=
  match t.data with
  | c1 :: c2 :: c3 :: _ =>
    if c1.isDigit && c2.isDigit && c3 = ':' then some (String.mk [c1, c2])
    else if c1.isDigit && c2 = ':' then some (String.mk [c1])
    else none
  | [c1, c2] =>
    if c1.isDigit && c2 = ':' then some (String.mk [c1])
    else none
  | _ => none

/-- Hour-bucket extraction of `HourActivity` (`part_007` lines 30-49):
use the regex capture when it matches; otherwise, for a time string of
length at least 2, keep the digits of its first two characters; a
shorter unmatched string makes the item be skipped (`return`), which is
the `none` result.  The extracted digits are zero-padded to two places
and an out-of-range hour (> 23) falls back to `"00"`. -/
def extractHour (t : String) : Option String :=
  let raw : Option String :=
    match hourMatch t with
    | some h => some (padStart2 h)
    | none =>
      if t.length ≥ 2 then
        some (padStart2 (String.mk ((t.take 2).data.filter Char.isDigit)))
      else none
  raw.map (fun hp => if 23 < digitsToNat hp then "00" else hp)

/-- Number of records of `data` landing in `bucket` (`part_007` lines
28-56): a record participates only when its `time` is truthy, and the
validated bucket is always one of `"00"`-`"23"`, so the
`hourMap.has(hour)` guard of the source always passes. -/
def hourCount (data : List UserStoryData) (bucket : String) : Nat :=
  data.countP (fun item =>
    match item.time with
    | none => false
    | some t => truthy t && (extractHour t == some bucket))

/-- The 24-entry histogram `byHour` (`part_007` lines 20-25 and 74-85):
buckets `"00"` through `"23"`, zero-filled, in ascending order. -/
def byHour (data : List UserStoryData) : List (String × Nat) :=
  (List.range 24).map
    (fun i => (padStart2 (toString i), hourCount data (padStart2 (toString i))))

end HourActivity

namespace UsageByTime

/-- Hour counting of `UsageByTime` (`UsageByTime.tsx` lines 33-38):
the bucket key of a record is the raw first two characters of its
`time` string (`time.slice(0, 2)`), with no digit run extraction, no
padding and no range check. -/
def usageHourCount (data : List UserStoryData) (bucket : String) : Nat :=
  data.countP (fun item =>
    match item.time with
    | none => false
    | some t => truthy t && (t.take 2 == bucket))

/-- The displayed 24-entry histogram (`UsageByTime.tsx` lines 47-52):
only the keys `"00"`-`"23"` are read back from the hour map, so a
record whose two leading characters are not such a key is counted
nowhere. -/
def usageByHour (data : List UserStoryData) : List (String × Nat) :=
  (List.range 24).map
    (fun i =>
      (HourActivity.padStart2 (toString i),
       usageHourCount data (HourActivity.padStart2 (toString i))))

end UsageByTime

/-- C7 counterexample: in the `UsageByTime` histogram — one of the two
hourly histograms the claim describes — the record with
`time = "9:05:00"` is keyed by its raw first two characters `"9:"`, so
it is not counted in bucket `"09"` (and lands in none of the 24
displayed buckets); the claim's example `"9:05:00" → "09"` fails for
this component. -/
theorem claim_C7_counterexample :
    UsageByTime.usageHourCount [{time := some "9:05:00"}] "09" = 0 ∧
    (UsageByTime.usageByHour [{time := some "9:05:00"}]).all
      (fun bc => bc.2 == 0) = true := by
  constructor
  · rfl
  · rfl

/-- C7 as amended: the `HourActivity` histogram extracts the bucket as
the claim states — the leading 1-2 digit run before `:` zero-padded to
two digits (`"9:05:00" → "09"`), out-of-range hours and length-≥2
unparseable strings defaulting to `"00"` (`"abc" → "00"`) — except that
an unmatched string shorter than two characters makes the record be
skipped rather than counted in `"00"`; the histogram always has exactly
24 zero-filled buckets `"00"`-`"23"`.  The `UsageByTime` histogram
instead keys by the raw first two characters, so `"9:05:00"` is counted
in no bucket there. -/
theorem claim_C7_amended_hour_buckets (data : List UserStoryData) :
    HourActivity.extractHour "9:05:00" = some "09" ∧
    HourActivity.extractHour "abc" = some "00" ∧
    HourActivity.extractHour "99:00:00" = some "00" ∧
    HourActivity.extractHour "x" = none ∧
    HourActivity.hourCount [{time := some "9:05:00"}] "09" = 1 ∧
    (HourActivity.byHour data).length = 24 ∧
    (HourActivity.byHour data).map Prod.fst =
      ["00", "01", "02", "03", "04", "05", "06", "07", "08", "09", "10",
       "11", "12", "13", "14", "15", "16", "17", "18", "19", "20", "21",
       "22", "23"] ∧
    (∀ bucket : String, HourActivity.hourCount [] bucket = 0) ∧
    UsageByTime.usageHourCount [{time := some "9:05:00"}] "09" = 0 := by
  refine ⟨rfl, rfl, rfl, rfl, rfl, ?_, ?_, fun _ => rfl, rfl⟩
  · simp [HourActivity.byHour]
  · rw [HourActivity.byHour, List.map_map]
    rfl

namespace Types

/-- The two deployment environments (`types.ts` line 31). -/
inductive Environment where
  | dev
  | prod
  deriving Repr, DecidableEq

/-- The UTF-8 bytes of a character, as percent-encoding operates on
them. -/
def utf8Bytes (c : Char) : List Nat :=
  let n := c.toNat
  if n < 0x80 then [n]
  else if n < 0x800 then
    [0xC0 + n / 0x40, 0x80 + n % 0x40]
  else if n < 0x10000 then
    [0xE0 + n / 0x1000, 0x80 + n / 0x40 % 0x40, 0x80 + n % 0x40]
  else
    [0xF0 + n / 0x40000, 0x80 + n / 0x1000 % 0x40, 0x80 + n / 0x40 % 0x40,
     0x80 + n % 0x40]

/-- Upper-case hexadecimal digit. -/
def hexDigit (n : Nat) : Char :=
  if n < 10 then Char.ofNat (48 + n) else Char.ofNat (65 + n - 10)

/-- A percent-encoded byte, `%XX`. -/
def percentByte (b : Nat) : List Char :=
  ['%', hexDigit (b / 16), hexDigit (b % 16)]

/-- The characters `encodeURIComponent` leaves unescaped:
alphanumerics and `- _ . ! ~ * ' ( )`. -/
def uriUnreserved (c : Char) : Bool :=
  c.isAlpha || c.isDigit ||
  c ∈ ['-', '_', '.', '!', '~', '*', Char.ofNat 39, '(', ')']

/-- JavaScript `encodeURIComponent`: unreserved characters pass
through, every other character is replaced by the percent-encoding of
its UTF-8 bytes. -/
def encodeURIComponent (s : String) : String :=
  String.mk (s.data.flatMap (fun c =>
    if uriUnreserved c then [c] else (utf8Bytes c).flatMap percentByte))

/-- `getArtifactUrl` (`types.ts` lines 33-37): the environment picks the
base host, and the mode path segment is the encoding of the constant
string `'Requirement AI'` — the `modeName` argument is never read. -/
def getArtifactUrl (artifactId : String) (environment : Environment)
    (modeName : String) : String :=
  let baseUrl :=
    match environment with
    | .dev => "https://dev.appmod.ai"
    | .prod => "https://appmod.ai"
  let encodedModeName := encodeURIComponent "Requirement AI"
  baseUrl ++ "/artifact/" ++ artifactId ++ "/mode/" ++ encodedModeName

end Types

/-- C9: `getArtifactUrl` is independent of its `modeName` argument —
any two mode names yield the identical URL — and the mode path segment
is always the constant `"Requirement%20AI"`. -/
theorem claim_C9_getArtifactUrl_ignores_mode
    (aid : String) (env : Types.Environment) (m1 m2 : String) :
    Types.getArtifactUrl aid env m1 = Types.getArtifactUrl aid env m2 ∧
    Types.getArtifactUrl aid env m1 =
      (match env with
       | .dev => "https://dev.appmod.ai"
       | .prod => "https://appmod.ai") ++
        "/artifact/" ++ aid ++ "/mode/" ++ "Requirement%20AI" := by
  constructor
  · rfl
  · cases env <;> rfl

/-- JavaScript `s.replace(/"/g, '""')`: double every double-quote
character. -/
def escQuotes (s : String) : String :=
  String.mk (s.data.flatMap (fun c => if c = '"' then ['"', '"'] else [c]))

/-- The CSV field escaping used by both exports: wrap in double quotes
after doubling the internal ones. -/
def csvEscape (s : String) : String :=
  "\"" ++ escQuotes s ++ "\""

/-- Inverse of `escQuotes` at the character level: collapse doubled
quotes. -/
def unescQuotes : List Char → List Char
  | '"' :: '"' :: rest => '"' :: unescQuotes rest
  | c :: rest => c :: unescQuotes rest
  | [] => []

theorem unescQuotes_cons_ne {c : Char} (l : List Char) (hc : c ≠ '"') :
    unescQuotes (c :: l) = c :: unescQuotes l := by
  rw [unescQuotes.eq_def]
  split
  · rename_i heq
    exact absurd (List.cons.inj heq).1 hc
  · rename_i heq
    obtain ⟨h1, h2⟩ := List.cons.inj heq
    rw [← h1, ← h2]
  · rename_i heq
    exact absurd heq (List.cons_ne_nil _ _)

theorem unescQuotes_escQuotes (s : String) :
    unescQuotes (escQuotes s).data = s.data := by
  rw [escQuotes]
  show unescQuotes
      (s.data.flatMap (fun c => if c = '"' then ['"', '"'] else [c])) =
    s.data
  induction s.data with
  | nil => rfl
  | cons c cs ih =>
    rw [List.flatMap_cons]
    by_cases hc : c = '"'
    · subst hc
      rw [if_pos rfl]
      show '"' :: unescQuotes _ = _
      exact congrArg _ ih
    · rw [if_neg hc, List.singleton_append, unescQuotes_cons_ne _ hc]
      exact congrArg _ ih

namespace DataTable

/-- The fixed header row of the data-table export
(`part_003` lines 286-296). -/
def headers : List String :=
  ["Artifact ID", "Artifact Title", "Date", "Time", "User", "Template",
   "Project", "Status", "URL"]

/-- The cells of one exported row (`part_003` lines 301-316): the id,
date, time and status cells carry the raw field value; the title, user
(email), template (mode name) and project cells are quote-wrapped with
internal quotes doubled; the final cell is the artifact URL (empty when
the record has no truthy `artifact_id`). -/
def rowCells (environment : Types.Environment) (item : UserStoryData) :
    List String :=
  let artifactUrl :=
    match item.artifact_id with
    | none => ""
    | some aid =>
      if truthy aid then
        Types.getArtifactUrl aid environment (item.mode_name.getD "")
      else ""
  [item.artifact_id.getD "",
   csvEscape (item.artifact_title.getD ""),
   item.date.getD "",
   item.time.getD "",
   csvEscape (item.user_email.getD ""),
   csvEscape (item.mode_name.getD ""),
   csvEscape (item.project_name.getD ""),
   item.status.getD "",
   artifactUrl]

/-- The rows of the artifact (`part_003` lines 299-319): the joined
header line followed by one joined line per record. -/
def csvRows (environment : Types.Environment) (data : List UserStoryData) :
    List String :=
  String.intercalate "," headers ::
    data.map (fun item => String.intercalate "," (rowCells environment item))

/-- `exportToCSV` (`part_003` lines 282-330): nothing is produced for an
empty record list (the early `return`); otherwise the content is every
row followed by a newline.  The DOM download mechanics are out of
scope — the produced text is the model's result. -/
def exportToCSV (environment : Types.Environment)
    (data : List UserStoryData) : Option String :=
  if data.length = 0 then none
  else some (String.join ((csvRows environment data).map (fun r => r ++ "\n")))

end DataTable

namespace DashboardPage

/-- The fixed header row of the dashboard-page export
(`Promptmanager.tsx` lines 1228-1238, the appended dashboard source). -/
def headers : List String :=
  ["Artifact ID", "Artifact Title", "Date", "Time", "User Email",
   "Template", "Project", "Status", "Created At"]

/-- The cells of one exported row (`Promptmanager.tsx` lines
1246-1257): same escaping discipline as the data-table export, with a
raw `created_at` cell instead of the URL. -/
def rowCells (item : UserStoryData) : List String :=
  [item.artifact_id.getD "",
   csvEscape (item.artifact_title.getD ""),
   item.date.getD "",
   item.time.getD "",
   csvEscape (item.user_email.getD ""),
   csvEscape (item.mode_name.getD ""),
   csvEscape (item.project_name.getD ""),
   item.status.getD "",
   item.created_at.getD ""]

/-- The rows of the artifact (`Promptmanager.tsx` lines 1240-1259). -/
def csvRows (data : List UserStoryData) : List String :=
  String.intercalate "," headers ::
    data.map (fun item => String.intercalate "," (rowCells item))

/-- `exportToCSV` (`Promptmanager.tsx` lines 1224-1274): empty data
produces nothing; otherwise the rows are joined with newlines (no
trailing newline in this variant). -/
def exportToCSV (data : List UserStoryData) : Option String :=
  if data.length = 0 then none
  else some (String.intercalate "\n" (csvRows data))

end DashboardPage

/-- C8: each CSV export emits one fixed header row followed by one row
per record; the title, user, template and project cells are wrapped in
double quotes with internal quotes doubled (hence in particular when
they contain the delimiter or a quote), recoverably so
(`unescQuotes` restores the original text); the id, status, date and
time cells are the raw field values with no escaping.  Holds for both
the data-table export (`part_003`) and the dashboard export. -/
theorem claim_C8_csv_export_escaping (environment : Types.Environment)
    (data : List UserStoryData) (hne : data ≠ []) :
    DataTable.exportToCSV environment data =
      some (String.join
        ((DataTable.csvRows environment data).map (fun r => r ++ "\n"))) ∧
    (DataTable.csvRows environment data).length = data.length + 1 ∧
    (DataTable.csvRows environment data).head? =
      some "Artifact ID,Artifact Title,Date,Time,User,Template,Project,Status,URL" ∧
    (∀ item ∈ data, ∀ raw ∈
        [item.artifact_title.getD "", item.user_email.getD "",
         item.mode_name.getD "", item.project_name.getD ""],
      csvEscape raw = "\"" ++ escQuotes raw ++ "\"" ∧
      unescQuotes (escQuotes raw).data = raw.data) ∧
    (∀ item ∈ data,
      (DataTable.rowCells environment item).take 4 =
        [item.artifact_id.getD "",
         csvEscape (item.artifact_title.getD ""),
         item.date.getD "", item.time.getD ""] ∧
      (DataTable.rowCells environment item).get? 7 =
        some (item.status.getD "")) ∧
    DashboardPage.exportToCSV data =
      some (String.intercalate "\n" (DashboardPage.csvRows data)) ∧
    (DashboardPage.csvRows data).length = data.length + 1 ∧
    (DashboardPage.csvRows data).head? =
      some "Artifact ID,Artifact Title,Date,Time,User Email,Template,Project,Status,Created At" ∧
    (∀ item ∈ data,
      DashboardPage.rowCells item =
        [item.artifact_id.getD "",
         csvEscape (item.artifact_title.getD ""),
         item.date.getD "", item.time.getD "",
         csvEscape (item.user_email.getD ""),
         csvEscape (item.mode_name.getD ""),
         csvEscape (item.project_name.getD ""),
         item.status.getD "", item.created_at.getD ""]) := by
  have hlen : data.length ≠ 0 := fun h => hne (List.length_eq_zero.mp h)
  refine ⟨?_, ?_, rfl, ?_, ?_, ?_, ?_, rfl, ?_⟩
  · rw [DataTable.exportToCSV, if_neg hlen]
  · simp [DataTable.csvRows]
  · intro item _ raw _
    exact ⟨rfl, unescQuotes_escQuotes raw⟩
  · intro item _
    exact ⟨rfl, rfl⟩
  · rw [DashboardPage.exportToCSV, if_neg hlen]
  · simp [DashboardPage.csvRows]
  · intro item _
    rfl

/-- Concrete instantiation of C8 on a record whose text fields contain
the delimiter and a quote. -/
theorem claim_C8_csv_export_escaping_witness :
    [({artifact_id := some "a1", artifact_title := some "t,\"x\"",
       date := some "2025-01-01", time := some "09:00:00",
       user_email := some "u@x", mode_name := some "m,1",
       project_name := some "p\"q", status := some "success",
       created_at := some "01/01/25 09:00:00"} : UserStoryData)] ≠ [] ∧
    (DataTable.csvRows Types.Environment.dev
        [{artifact_id := some "a1", artifact_title := some "t,\"x\"",
          date := some "2025-01-01", time := some "09:00:00",
          user_email := some "u@x", mode_name := some "m,1",
          project_name := some "p\"q", status := some "success",
          created_at := some "01/01/25 09:00:00"}]).length = 1 + 1 := by
  constructor
  · exact List.cons_ne_nil _ _
  · exact (claim_C8_csv_export_escaping Types.Environment.dev _
      (List.cons_ne_nil _ _)).2.1

namespace ArtifactsRoute

/-- One entry of `artifactData.userStorySnapshot` as read by the route
(`part_011` lines 167-171): only `title` is consumed. -/
structure SnapshotEntry where
  title : Option String := none
  deriving Repr, DecidableEq

/-- `artifactData.selectedProjectSnapShot` (`part_011` lines 173-178):
only `name` is consumed. -/
structure ProjectSnap where
  name : Option String := none
  deriving Repr, DecidableEq

/-- The `artifactData` sub-document (`part_011` lines 163-178). -/
structure ArtifactData where
  userStorySnapshot : List SnapshotEntry := []
  selectedProjectSnapShot : Option ProjectSnap := none
  deriving Repr, DecidableEq

/-- One stored document of the `artifacts` collection, restricted to
the fields the route reads (`part_011` lines 180-195);
`artifactTitleIDs` is copied through verbatim and is not consumed by
any aggregate, so it is omitted here. -/
structure ArtifactDoc where
  artifactId : Option String := none
  artifactTitle : Option String := none
  userEmail : Option String := none
  modeName : Option String := none
  widgetName : Option String := none
  created_at : Option String := none
  updated_at : Option String := none
  artifactData : Option ArtifactData := none
  deriving Repr, DecidableEq

/-- The per-document record constructed by the artifacts API — the loop
bodies of the time-range `GET` handler (`part_011` lines 142-198) and
of the paginated `POST` handler (`part_011` lines 227-276) are
identical.  The luxon parse of `created_at` (format
`dd/MM/yy HH:mm:ss`, yielding the display date and time on success) is
an external library call, passed in as `parse`.  The `status` field is
the constant `"success"` regardless of the document's contents. -/
def result_json (parse : String → Option (String × String))
    (doc : ArtifactDoc) : UserStoryData :=
  let created_at_str := doc.created_at.getD ""
  let dt : Option (String × String) :=
    if truthy created_at_str then parse created_at_str else none
  let artifact_data := doc.artifactData.getD {}
  let user_story_type : Option String :=
    match artifact_data.userStorySnapshot with
    | [] => none
    | e :: _ => some (e.title.getD "")
  let project_name : String :=
    (artifact_data.selectedProjectSnapShot.getD {}).name.getD ""
  { artifact_id := some (doc.artifactId.getD "")
    artifact_title := some (doc.artifactTitle.getD "")
    date := dt.map Prod.fst
    time := dt.map Prod.snd
    user_email := some (doc.userEmail.getD "")
    mode_name := some (doc.modeName.getD "")
    widget_name := some (doc.widgetName.getD "")
    project_name := some project_name
    user_story_type := user_story_type
    status := some "success"
    created_at := some (doc.created_at.getD "")
    updated_at := some (doc.updated_at.getD "") }

end ArtifactsRoute

/-- C10: every artifact record emitted by the artifacts API — by the
time-range `GET` handler and the paginated `POST` handler alike, whose
per-document construction `result_json` is shared — carries
`status = "success"` whatever the stored document holds, so the
`failed` and `pending` aggregate counts over any API-produced list are
zero. -/
theorem claim_C10_api_status_always_success
    (parse : String → Option (String × String))
    (doc : ArtifactsRoute.ArtifactDoc)
    (docs : List ArtifactsRoute.ArtifactDoc) :
    (ArtifactsRoute.result_json parse doc).status = some "success" ∧
    (StatsOverview.statsOf
      (docs.map (ArtifactsRoute.result_json parse))).failed = 0 ∧
    (StatsOverview.statsOf
      (docs.map (ArtifactsRoute.result_json parse))).pending = 0 := by
  have hs : ∀ r ∈ docs.map (ArtifactsRoute.result_json parse),
      r.status = some "success" := by
    intro r hr
    obtain ⟨d, _, rfl⟩ := List.mem_map.mp hr
    rfl
  refine ⟨rfl, ?_, ?_⟩
  · have hnil : (docs.map (ArtifactsRoute.result_json parse)).filter
        (fun d => d.status == some "failed") = [] :=
      List.filter_eq_nil_iff.mpr (fun r hr => by rw [hs r hr]; decide)
    show (List.filter _ _).length = 0
    rw [hnil]
    rfl
  · have hnil : (docs.map (ArtifactsRoute.result_json parse)).filter
        (fun d => d.status == some "pending") = [] :=
      List.filter_eq_nil_iff.mpr (fun r hr => by rw [hs r hr]; decide)
    show (List.filter _ _).length = 0
    rw [hnil]
    rfl
